import Mathlib

/-!
Verification of the call-site resolution subsystem declared in
`frontends/p4/methodInstance.h` (namespace `P4` of the p4c front end).

The header file contains the data model (`InstanceBase`, `MethodInstance`
and its six variants, `ConstructorCall` and its two variants,
`Instantiation` and its four variants) together with the inline
constructor bodies that perform the parameter and type-variable binding.
Those inline bodies are embedded here directly.  The out-of-line pieces
(`MethodInstance::resolve`, `ConstructorCall::resolve`,
`ExternMethod::mayCall`, `ActionCall::specialize`,
`ParameterSubstitution::populate`, `TypeVariableSubstitution::setBindings`,
`Type_Extern::lookupConstructor`) are declared but not defined in the
available source; they are modelled from the specification and marked as
such in their doc comments.
-/

namespace P4

/-- Error kinds of the resolution layer (spec section 7): `UnresolvableCall`,
`NoMatchingConstructor`, and the failure of a binder to reconcile an
argument list with a parameter list. -/
inductive ResolutionError where
  | unresolvableCall
  | noMatchingConstructor
  | bindingFailure
deriving DecidableEq, Repr

/-- Shallow embedding of the IR types that matter to classification:
bit types, type variables, header / header-union / stack types (the
receivers of built-in methods), plain named types and `void`. -/
inductive Ty where
  | bit (width : Nat)
  | tvar (name : String)
  | header (name : String)
  | headerUnion (name : String)
  | stack (name : String)
  | named (name : String)
  | void
deriving DecidableEq, Repr

/-- Shallow embedding of IR expressions: literals, variables, member
access (the callee of a method call is a member expression) and path
references to top-level declarations. -/
inductive Expr where
  | num (n : Int)
  | var (name : String)
  | member (recv : Expr) (field : String)
  | path (name : String)
deriving DecidableEq, Repr

/-- An `IR::Argument`: an optional name (for named arguments) and the
argument expression. -/
structure Argument where
  name : Option String := none
  value : Expr
deriving DecidableEq, Repr

/-- An `IR::Parameter`: its name, its type, and an optional default
value used when the argument is omitted. -/
structure Parameter where
  name : String
  typ : Ty
  defaultValue : Option Expr := none
deriving DecidableEq, Repr

/-- A statement of an action body (a representative fragment of the IR
statement language, enough to state the specialization law). -/
inductive Statement where
  | assign (lhs rhs : Expr)
  | exprStmt (e : Expr)
  | emptyStmt
deriving DecidableEq, Repr

/-- The `ParameterSubstitution` container: for each callee parameter the
corresponding argument (`InstanceBase::substitution`,
methodInstance.h line 33). -/
abbrev ParameterSubstitution := List (Parameter × Argument)

/-- The `TypeVariableSubstitution` container: a binding of type-parameter
names to types (`InstanceBase::typeSubstitution`, methodInstance.h
line 36). -/
abbrev TypeVariableSubstitution := List (String × Ty)

/-- Modelled from the spec: helper of the Parameter Binder, binding the
parameters that were not matched positionally.  Each remaining parameter
is matched by name against the named arguments, and a parameter with no
matching named argument receives its declared default; a missing
required parameter or a leftover argument is a failure.
(`ParameterSubstitution::populate` is declared in
parameterSubstitution.h, which is not part of the available source.) -/
def bindRest : List Parameter → List Argument → Except ResolutionError ParameterSubstitution
  | [], named => if named.isEmpty then .ok [] else .error .bindingFailure
  | p :: ps, named =>
    match named.find? (fun a => a.name == some p.name) with
    | some a =>
      match bindRest ps (named.erase a) with
      | .ok s => .ok ((p, a) :: s)
      | .error e => .error e
    | none =>
      match p.defaultValue with
      | some d =>
        match bindRest ps named with
        | .ok s => .ok ((p, { name := none, value := d }) :: s)
        | .error e => .error e
      | none => .error .bindingFailure

/-- Modelled from the spec: the Parameter Binder,
`populate(formalParameters, actualArguments) -> ParameterBinding`,
"matching by position then by name, applying declared defaults for
omitted optional parameters; fails if arity/names cannot be reconciled"
(spec section 6).  The leading unnamed arguments are matched by
position; the remaining parameters are bound by `bindRest`. -/
def populate (params : List Parameter) (args : List Argument) :
    Except ResolutionError ParameterSubstitution :=
  let pos := args.takeWhile (fun a => a.name.isNone)
  let named := args.dropWhile (fun a => a.name.isNone)
  if pos.length ≤ params.length then
    match bindRest (params.drop pos.length) named with
    | .ok s => .ok ((params.take pos.length).zip pos ++ s)
    | .error e => .error e
  else .error .bindingFailure

/-- Modelled from the spec: the Type-Variable Binder,
`setBindings(anchorNode, typeParameters, typeArguments)`, which binds
each declared type parameter to the type argument in the same position
and fails when the two lists cannot be matched up (spec section 6; the
anchor node is used only for diagnostics and is dropped here). -/
def setBindings (typeParams : List String) (typeArgs : List Ty) :
    Except ResolutionError TypeVariableSubstitution :=
  if typeParams.length = typeArgs.length then .ok (typeParams.zip typeArgs)
  else .error .bindingFailure

/-- An `IR::Type_MethodBase`: type parameters, run-time parameters and
return type of a callable signature (also used for `Type_Method` and
`Type_Action`, which refine it in the IR). -/
structure Type_MethodBase where
  typeParameters : List String
  parameters : List Parameter
  returnType : Ty
deriving DecidableEq, Repr

/-- An `IR::Method`: an extern method, extern function or extern
constructor declaration.  `isAbstract` marks abstract methods and
`synchronousWith` holds the method names listed in the method's
`@synchronous` annotation, both consumed by `mayCall`. -/
structure Method where
  name : String
  type : Type_MethodBase
  isAbstract : Bool := false
  synchronousWith : List String := []
deriving DecidableEq, Repr

/-- An `IR::Type_Extern`: its name, class-level type parameters and
member methods.  Constructors are the members whose name equals the
extern's own name. -/
structure Type_Extern where
  name : String
  typeParameters : List String
  methods : List Method
deriving DecidableEq, Repr

/-- An `IR::Function`: a user-defined function declaration. -/
structure Function where
  name : String
  type : Type_MethodBase
deriving DecidableEq, Repr

/-- An `IR::P4Action`: an action declaration with its parameters and
body.  Actions are never generic. -/
structure P4Action where
  name : String
  parameters : List Parameter
  body : List Statement
deriving DecidableEq, Repr

/-- Kind of an object exposing the apply capability: table, control or
parser. -/
inductive ApplyKind where
  | tableKind
  | controlKind
  | parserKind
deriving DecidableEq, Repr

/-- The result of the declaration-resolution service for a name: the
declaration kinds that the call classifier distinguishes.  An
`externInstance` carries its declared extern type, the type-variable
binding obtained when the instance itself was resolved, and the
concrete implementations supplied in the instance declaration's
initializer (consumed by `mayCall` for abstract methods). -/
inductive Declaration where
  | applyObject (kind : ApplyKind) (name : String) (applyMethodType : Type_MethodBase)
  | externInstance (name : String) (originalExternType : Type_Extern)
      (instanceTypeBinding : TypeVariableSubstitution) (impls : List Function)
  | externFunctionDecl (m : Method)
  | actionDecl (a : P4Action) (actionType : Type_MethodBase)
  | functionDecl (f : Function)
deriving DecidableEq, Repr

/-- An `IR::MethodCallExpression`: the callee expression, explicit (or
inference-inserted) type arguments, and the argument list. -/
structure MethodCallExpression where
  callee : Expr
  typeArguments : List Ty
  arguments : List Argument
deriving DecidableEq, Repr

/-- The fields shared by every `MethodInstance` (methodInstance.h
lines 27-39 and 75-85): the originating call expression, the
declaration of the object the method is applied to (null for plain
functions), the original and actual method types, and the two
substitutions inherited from `InstanceBase`. -/
structure MethodInstanceData where
  expr : MethodCallExpression
  object : Option Declaration
  originalMethodType : Type_MethodBase
  actualMethodType : Type_MethodBase
  substitution : ParameterSubstitution
  typeSubstitution : TypeVariableSubstitution
deriving DecidableEq, Repr

/-- An `IR::IApply`: an object exposing the apply capability, with its
kind and its fixed apply-method signature (`getApplyMethodType`). -/
structure IApply where
  kind : ApplyKind
  applyMethodType : Type_MethodBase
deriving DecidableEq, Repr

/-- The six call-instance variants of the `MethodInstance` hierarchy
(methodInstance.h: `ApplyMethod`, `ExternMethod`, `ExternFunction`,
`ActionCall`, `FunctionCall`, `BuiltInMethod`). -/
inductive MethodInstance where
  | applyMethod (d : MethodInstanceData) (applyObject : IApply)
  | externMethod (d : MethodInstanceData) (method : Method)
      (originalExternType : Type_Extern) (actualExternType : Type_Extern)
  | externFunction (d : MethodInstanceData) (method : Method)
  | actionCall (d : MethodInstanceData) (action : P4Action)
  | functionCall (d : MethodInstanceData) (function : Function)
  | builtInMethod (d : MethodInstanceData) (name : String) (appliedTo : Expr)
deriving DecidableEq, Repr

/-- Common-field accessor for the six variants. -/
def MethodInstance.data : MethodInstance → MethodInstanceData
  | .applyMethod d _ => d
  | .externMethod d _ _ _ => d
  | .externFunction d _ => d
  | .actionCall d _ => d
  | .functionCall d _ => d
  | .builtInMethod d _ _ => d

/-- The `ApplyMethod` constructor (methodInstance.h lines 129-137):
original and actual method type are both the object's fixed apply-method
signature, and `bindParameters` (lines 70-73) populates the parameter
substitution from the actual parameters and the call's arguments.  The
type substitution is left empty (apply-capable objects are never
generic). -/
def mkApplyMethod (expr : MethodCallExpression) (decl : Declaration) (applyObject : IApply) :
    Except ResolutionError MethodInstance :=
  match populate applyObject.applyMethodType.parameters expr.arguments with
  | .ok s => .ok (.applyMethod
      { expr := expr, object := some decl,
        originalMethodType := applyObject.applyMethodType,
        actualMethodType := applyObject.applyMethodType,
        substitution := s, typeSubstitution := [] } applyObject)
  | .error e => .error e

/-- The `ExternCall` constructor body (methodInstance.h lines 151-159):
`bindParameters()` runs unconditionally, and
`typeSubstitution.setBindings(expr, method->type->typeParameters,
expr->typeArguments)` runs only when `incomplete` is false.  Returns the
two substitutions, which `mkExternMethod` and `mkExternFunction` attach
to their variants. -/
def mkExternCall (expr : MethodCallExpression) (method : Method)
    (actualMethodType : Type_MethodBase) (incomplete : Bool) :
    Except ResolutionError (ParameterSubstitution × TypeVariableSubstitution) :=
  match populate actualMethodType.parameters expr.arguments with
  | .error e => .error e
  | .ok s =>
    if incomplete then .ok (s, [])
    else
      match setBindings method.type.typeParameters expr.typeArguments with
      | .error e => .error e
      | .ok ts => .ok (s, ts)

/-- The `ExternMethod` constructor (methodInstance.h lines 169-178): an
`ExternCall` carrying in addition the original and actual extern types
of the receiver object. -/
def mkExternMethod (expr : MethodCallExpression) (decl : Declaration) (method : Method)
    (originalExternType actualExternType : Type_Extern)
    (originalMethodType actualMethodType : Type_MethodBase) (incomplete : Bool) :
    Except ResolutionError MethodInstance :=
  match mkExternCall expr method actualMethodType incomplete with
  | .error e => .error e
  | .ok (s, ts) => .ok (.externMethod
      { expr := expr, object := some decl,
        originalMethodType := originalMethodType, actualMethodType := actualMethodType,
        substitution := s, typeSubstitution := ts } method originalExternType actualExternType)

/-- The `ExternFunction` constructor (methodInstance.h lines 195-198):
an `ExternCall` with a null object declaration. -/
def mkExternFunction (expr : MethodCallExpression) (method : Method)
    (originalMethodType actualMethodType : Type_MethodBase) (incomplete : Bool) :
    Except ResolutionError MethodInstance :=
  match mkExternCall expr method actualMethodType incomplete with
  | .error e => .error e
  | .ok (s, ts) => .ok (.externFunction
      { expr := expr, object := none,
        originalMethodType := originalMethodType, actualMethodType := actualMethodType,
        substitution := s, typeSubstitution := ts } method)

/-- The `ActionCall` constructor (methodInstance.h lines 210-217):
"Actions are never generic" — the action type is passed as both the
original and the actual method type, and only the parameters are
bound. -/
def mkActionCall (expr : MethodCallExpression) (action : P4Action)
    (actionType : Type_MethodBase) : Except ResolutionError MethodInstance :=
  match populate actionType.parameters expr.arguments with
  | .ok s => .ok (.actionCall
      { expr := expr, object := none,
        originalMethodType := actionType, actualMethodType := actionType,
        substitution := s, typeSubstitution := [] } action)
  | .error e => .error e

/-- The `FunctionCall` constructor (methodInstance.h lines 233-242):
`bindParameters()` runs unconditionally and
`typeSubstitution.setBindings(function, function->type->typeParameters,
expr->typeArguments)` runs only when `incomplete` is false. -/
def mkFunctionCall (expr : MethodCallExpression) (function : Function)
    (originalMethodType actualMethodType : Type_MethodBase) (incomplete : Bool) :
    Except ResolutionError MethodInstance :=
  match populate actualMethodType.parameters expr.arguments with
  | .error e => .error e
  | .ok s =>
    if incomplete then .ok (.functionCall
      { expr := expr, object := none,
        originalMethodType := originalMethodType, actualMethodType := actualMethodType,
        substitution := s, typeSubstitution := [] } function)
    else
      match setBindings function.type.typeParameters expr.typeArguments with
      | .error e => .error e
      | .ok ts => .ok (.functionCall
          { expr := expr, object := none,
            originalMethodType := originalMethodType, actualMethodType := actualMethodType,
            substitution := s, typeSubstitution := ts } function)

/-- The `BuiltInMethod` constructor (methodInstance.h lines 262-267):
the synthetic method type is both original and actual, and only the
parameters are bound. -/
def mkBuiltIn (expr : MethodCallExpression) (name : String) (appliedTo : Expr)
    (methodType : Type_MethodBase) : Except ResolutionError MethodInstance :=
  match populate methodType.parameters expr.arguments with
  | .ok s => .ok (.builtInMethod
      { expr := expr, object := none,
        originalMethodType := methodType, actualMethodType := methodType,
        substitution := s, typeSubstitution := [] } name appliedTo)
  | .error e => .error e

/-- Substitution of type variables inside a type, driven by a
type-variable binding. -/
def substTy (σ : TypeVariableSubstitution) : Ty → Ty
  | .tvar n =>
    match σ.find? (fun q => q.fst == n) with
    | some q => q.snd
    | none => .tvar n
  | t => t

/-- Substitution of a type-variable binding through a method signature:
parameter types and return type are rewritten, and the type parameters
that the binding covers are discharged (the method's own, unbound type
parameters remain). -/
def substMethodType (σ : TypeVariableSubstitution) (mt : Type_MethodBase) : Type_MethodBase :=
  { typeParameters := mt.typeParameters.filter (fun tp => (σ.find? (fun q => q.fst == tp)).isNone),
    parameters := mt.parameters.map (fun p => { p with typ := substTy σ p.typ }),
    returnType := substTy σ mt.returnType }

/-- Substitution of a type-variable binding through an extern type: all
member method signatures are rewritten with the instance's concrete
type arguments. -/
def substExternType (σ : TypeVariableSubstitution) (t : Type_Extern) : Type_Extern :=
  { name := t.name,
    typeParameters := t.typeParameters.filter (fun tp => (σ.find? (fun q => q.fst == tp)).isNone),
    methods := t.methods.map (fun m => { m with type := substMethodType σ m.type }) }

/-- Modelled from the spec: the actual (substituted) signature of a
called function, obtained by instantiating its declared type parameters
with the call's type arguments when they line up (the type-inference
store would supply this type; the store itself is outside the available
source). -/
def actualOf (mt : Type_MethodBase) (typeArgs : List Ty) : Type_MethodBase :=
  if mt.typeParameters.length = typeArgs.length then
    substMethodType (mt.typeParameters.zip typeArgs) mt
  else mt

/-- Modelled from the spec: the synthetic signature of a built-in method,
"derived from the receiver's type, not from any declaration" (spec
section 4.1).  Returns `none` when the name/receiver-type pair is not
one of the five built-in operations on header, header-union and stack
types. -/
def builtInMethodType (name : String) (recvTy : Ty) : Option Type_MethodBase :=
  match recvTy with
  | .header _ =>
    if name == "setValid" then some { typeParameters := [], parameters := [], returnType := .void }
    else if name == "setInvalid" then
      some { typeParameters := [], parameters := [], returnType := .void }
    else if name == "isValid" then
      some { typeParameters := [], parameters := [], returnType := .named "bool" }
    else none
  | .headerUnion _ =>
    if name == "isValid" then
      some { typeParameters := [], parameters := [], returnType := .named "bool" }
    else none
  | .stack _ =>
    if name == "push_front" then
      some { typeParameters := [],
             parameters := [{ name := "count", typ := .named "int" }], returnType := .void }
    else if name == "pop_front" then
      some { typeParameters := [],
             parameters := [{ name := "count", typ := .named "int" }], returnType := .void }
    else none
  | _ => none

/-- The in-process environment of the classifier: the
declaration-resolution service (a name-to-declaration map) and the type
store (an expression-to-type map), both external collaborators of the
core (spec section 6). -/
structure Env where
  decls : List (String × Declaration)
  exprTypes : List (Expr × Ty)
deriving DecidableEq, Repr

/-- Lookup in the declaration-resolution service. -/
def Env.lookupDecl (env : Env) (n : String) : Option Declaration :=
  (env.decls.find? (fun q => q.fst == n)).map Prod.snd

/-- Lookup in the type store. -/
def Env.typeOf (env : Env) (e : Expr) : Option Ty :=
  (env.exprTypes.find? (fun q => q.fst == e)).map Prod.snd

/-- Declaration of the receiver of a method call, when the receiver is a
name that the declaration service resolves. -/
def receiverDecl (env : Env) : Expr → Option Declaration
  | .path n => env.lookupDecl n
  | .var n => env.lookupDecl n
  | _ => none

/-- Modelled from the spec: `MethodInstance::resolve` (declared at
methodInstance.h lines 94-97; its body lives in methodInstance.cpp,
which is not part of the available source).  Classification follows the
priority of spec section 4.1: apply capability first, then the five
built-in operations, then extern methods, and for path callees extern
functions, actions and user functions; every other case is the
`UnresolvableCall` internal error.  The extern-method case resolves the
extern type and method signature both in declared form and with the
instance's type-variable binding substituted in. -/
def MethodInstance.resolve (mce : MethodCallExpression) (env : Env) (incomplete : Bool) :
    Except ResolutionError MethodInstance :=
  match mce.callee with
  | .member recv mname =>
    match receiverDecl env recv, (env.typeOf recv).bind (fun t => builtInMethodType mname t) with
    | some (.applyObject k oname amt), _ =>
      if mname == "apply" then mkApplyMethod mce (.applyObject k oname amt) ⟨k, amt⟩
      else .error .unresolvableCall
    | _, some bmt => mkBuiltIn mce mname recv bmt
    | some (.externInstance iname oet binding impls), none =>
      match oet.methods.find? (fun m => m.name == mname) with
      | some method =>
        mkExternMethod mce (.externInstance iname oet binding impls) method
          oet (substExternType binding oet)
          method.type (substMethodType binding method.type) incomplete
      | none => .error .unresolvableCall
    | _, _ => .error .unresolvableCall
  | .path fname =>
    match env.lookupDecl fname with
    | some (.externFunctionDecl m) =>
      mkExternFunction mce m m.type (actualOf m.type mce.typeArguments) incomplete
    | some (.actionDecl a aty) => mkActionCall mce a aty
    | some (.functionDecl f) =>
      mkFunctionCall mce f f.type (actualOf f.type mce.typeArguments) incomplete
    | _ => .error .unresolvableCall
  | _ => .error .unresolvableCall

/-- Modelled from the spec: `Type_Extern::lookupConstructor` (declared
in the IR, outside the available source).  Constructors are the members
whose name equals the extern's name; the first declared one whose
parameter list is compatible with the supplied argument list is
selected (spec sections 4.2 and 9: compatibility by arity and by name
for named arguments, first-declared match as the tie-break). -/
def Type_Extern.lookupConstructor (t : Type_Extern) (args : List Argument) : Option Method :=
  t.methods.find? (fun m => m.name == t.name && (populate m.type.parameters args).isOk)

/-- An `IR::ConstructorCallExpression`: the name of the constructed
type, its explicit type arguments, and the constructor arguments. -/
structure ConstructorCallExpression where
  constructedTypeName : String
  typeArguments : List Ty
  arguments : List Argument
deriving DecidableEq, Repr

/-- A type declaration visible to the constructor classifier: an extern
type or a container (parser, control or package) with its constructor
parameters. -/
inductive TypeDecl where
  | externT (t : Type_Extern)
  | containerT (name : String) (typeParameters : List String)
      (constructorParameters : List Parameter)
deriving DecidableEq, Repr

/-- The fields shared by the two `ConstructorCall` variants
(methodInstance.h lines 284-298): the originating expression, the type
arguments, the selected constructor parameter list and the two
substitutions inherited from `InstanceBase`. -/
structure ConstructorCallData where
  cce : ConstructorCallExpression
  typeArguments : List Ty
  constructorParameters : List Parameter
  substitution : ParameterSubstitution
  typeSubstitution : TypeVariableSubstitution
deriving DecidableEq, Repr

/-- The two constructor-call variants (methodInstance.h:
`ExternConstructorCall`, `ContainerConstructorCall`). -/
inductive ConstructorCall where
  | externCC (d : ConstructorCallData) (type : Type_Extern) (constructor : Method)
  | containerCC (d : ConstructorCallData) (containerName : String)
deriving DecidableEq, Repr

/-- Common-field accessor for the two variants. -/
def ConstructorCall.data : ConstructorCall → ConstructorCallData
  | .externCC d _ _ => d
  | .containerCC d _ => d

/-- Modelled from the spec: `ConstructorCall::resolve` (declared at
methodInstance.h lines 295-296; body in methodInstance.cpp, outside the
available source).  Per spec section 4.2: an extern type triggers the
constructor-overload search, whose failure is the fatal
`NoMatchingConstructor`; a container type is selected directly; in both
cases the constructor arguments are bound to the selected parameter
list and the type arguments to the type parameters. -/
def ConstructorCall.resolve (cce : ConstructorCallExpression)
    (types : List (String × TypeDecl)) : Except ResolutionError ConstructorCall :=
  match (types.find? (fun q => q.fst == cce.constructedTypeName)).map Prod.snd with
  | some (.externT t) =>
    match t.lookupConstructor cce.arguments with
    | none => .error .noMatchingConstructor
    | some c =>
      match populate c.type.parameters cce.arguments with
      | .error e => .error e
      | .ok s =>
        match setBindings t.typeParameters cce.typeArguments with
        | .error e => .error e
        | .ok ts => .ok (.externCC
            { cce := cce, typeArguments := cce.typeArguments,
              constructorParameters := c.type.parameters,
              substitution := s, typeSubstitution := ts } t c)
  | some (.containerT n tps cps) =>
    match populate cps cce.arguments with
    | .error e => .error e
    | .ok s =>
      match setBindings tps cce.typeArguments with
      | .error e => .error e
      | .ok ts => .ok (.containerCC
          { cce := cce, typeArguments := cce.typeArguments,
            constructorParameters := cps,
            substitution := s, typeSubstitution := ts } n)
  | none => .error .unresolvableCall

/-- An `IR::Declaration_Instance`: an object declaration instantiated
without call syntax, carrying its constructor arguments. -/
structure Declaration_Instance where
  name : String
  arguments : List Argument
deriving DecidableEq, Repr

/-- An `IR::Type_Package`. -/
structure Type_Package where
  name : String
  typeParameters : List String
  constructorParameters : List Parameter
deriving DecidableEq, Repr

/-- An `IR::P4Parser` (with the type parameters of its `Type_Parser` and
its constructor parameters). -/
structure P4Parser where
  name : String
  typeParameters : List String
  constructorParameters : List Parameter
deriving DecidableEq, Repr

/-- An `IR::P4Control` (with the type parameters of its `Type_Control`
and its constructor parameters). -/
structure P4Control where
  name : String
  typeParameters : List String
  constructorParameters : List Parameter
deriving DecidableEq, Repr

/-- The fields shared by the four `Instantiation` variants
(methodInstance.h lines 336-361): the instance declaration, the type
arguments, the constructor arguments taken from the declaration, the
selected constructor parameter and type-parameter lists, and the two
substitutions inherited from `InstanceBase`. -/
structure InstantiationData where
  inst : Declaration_Instance
  typeArguments : List Ty
  constructorArguments : List Argument
  constructorParameters : List Parameter
  typeParameters : List String
  substitution : ParameterSubstitution
  typeSubstitution : TypeVariableSubstitution
deriving DecidableEq, Repr

/-- The four instantiation variants (methodInstance.h:
`ExternInstantiation`, `PackageInstantiation`, `ParserInstantiation`,
`ControlInstantiation`). -/
inductive Instantiation where
  | externInst (d : InstantiationData) (type : Type_Extern)
  | packageInst (d : InstantiationData) (package : Type_Package)
  | parserInst (d : InstantiationData) (prs : P4Parser)
  | controlInst (d : InstantiationData) (ctrl : P4Control)
deriving DecidableEq, Repr

/-- Common-field accessor for the four variants. -/
def Instantiation.data : Instantiation → InstantiationData
  | .externInst d _ => d
  | .packageInst d _ => d
  | .parserInst d _ => d
  | .controlInst d _ => d

/-- The body of `Instantiation::substitute` (methodInstance.h lines
338-341): `substitution.populate(constructorParameters,
constructorArguments)` followed by `typeSubstitution.setBindings(
instance, typeParameters, typeArguments)`. -/
def Instantiation.substitute (constructorParameters : List Parameter)
    (constructorArguments : List Argument) (typeParameters : List String)
    (typeArguments : List Ty) :
    Except ResolutionError (ParameterSubstitution × TypeVariableSubstitution) :=
  match populate constructorParameters constructorArguments with
  | .error e => .error e
  | .ok s =>
    match setBindings typeParameters typeArguments with
    | .error e => .error e
    | .ok ts => .ok (s, ts)

/-- The `ExternInstantiation` constructor (methodInstance.h lines
365-373): look up the constructor matching the declaration's argument
list (`BUG_CHECK` failure is the `NoMatchingConstructor` error), select
its parameter list and the extern's type parameters, and call
`substitute()`. -/
def mkExternInstantiation (inst : Declaration_Instance) (typeArguments : List Ty)
    (type : Type_Extern) : Except ResolutionError Instantiation :=
  match type.lookupConstructor inst.arguments with
  | none => .error .noMatchingConstructor
  | some constructor =>
    match Instantiation.substitute constructor.type.parameters inst.arguments
        type.typeParameters typeArguments with
    | .error e => .error e
    | .ok (s, ts) => .ok (.externInst
        { inst := inst, typeArguments := typeArguments,
          constructorArguments := inst.arguments,
          constructorParameters := constructor.type.parameters,
          typeParameters := type.typeParameters,
          substitution := s, typeSubstitution := ts } type)

/-- The `PackageInstantiation` constructor (methodInstance.h lines
381-387): select the package's constructor parameters and type
parameters and call `substitute()`. -/
def mkPackageInstantiation (inst : Declaration_Instance) (typeArguments : List Ty)
    (package : Type_Package) : Except ResolutionError Instantiation :=
  match Instantiation.substitute package.constructorParameters inst.arguments
      package.typeParameters typeArguments with
  | .error e => .error e
  | .ok (s, ts) => .ok (.packageInst
      { inst := inst, typeArguments := typeArguments,
        constructorArguments := inst.arguments,
        constructorParameters := package.constructorParameters,
        typeParameters := package.typeParameters,
        substitution := s, typeSubstitution := ts } package)

/-- The `ParserInstantiation` constructor (methodInstance.h lines
395-401). -/
def mkParserInstantiation (inst : Declaration_Instance) (typeArguments : List Ty)
    (prs : P4Parser) : Except ResolutionError Instantiation :=
  match Instantiation.substitute prs.constructorParameters inst.arguments
      prs.typeParameters typeArguments with
  | .error e => .error e
  | .ok (s, ts) => .ok (.parserInst
      { inst := inst, typeArguments := typeArguments,
        constructorArguments := inst.arguments,
        constructorParameters := prs.constructorParameters,
        typeParameters := prs.typeParameters,
        substitution := s, typeSubstitution := ts } prs)

/-- The `ControlInstantiation` constructor (methodInstance.h lines
409-415). -/
def mkControlInstantiation (inst : Declaration_Instance) (typeArguments : List Ty)
    (ctrl : P4Control) : Except ResolutionError Instantiation :=
  match Instantiation.substitute ctrl.constructorParameters inst.arguments
      ctrl.typeParameters typeArguments with
  | .error e => .error e
  | .ok (s, ts) => .ok (.controlInst
      { inst := inst, typeArguments := typeArguments,
        constructorArguments := inst.arguments,
        constructorParameters := ctrl.constructorParameters,
        typeParameters := ctrl.typeParameters,
        substitution := s, typeSubstitution := ts } ctrl)

/-- Textual replacement of variables by expressions inside an
expression, driven by a name-to-expression substitution. -/
def substExpr (σ : List (String × Expr)) : Expr → Expr
  | .num n => .num n
  | .var w =>
    match σ.find? (fun q => q.fst == w) with
    | some q => q.snd
    | none => .var w
  | .member r f => .member (substExpr σ r) f
  | .path n => .path n

/-- Textual replacement of variables inside a statement. -/
def substStmt (σ : List (String × Expr)) : Statement → Statement
  | .assign l r => .assign (substExpr σ l) (substExpr σ r)
  | .exprStmt e => .exprStmt (substExpr σ e)
  | .emptyStmt => .emptyStmt

/-- Does the variable `v` occur in the expression? -/
def exprHasVar (v : String) : Expr → Bool
  | .num _ => false
  | .var w => w == v
  | .member r _ => exprHasVar v r
  | .path _ => false

/-- Does the variable `v` occur in the statement? -/
def stmtHasVar (v : String) : Statement → Bool
  | .assign l r => exprHasVar v l || exprHasVar v r
  | .exprStmt e => exprHasVar v e
  | .emptyStmt => false

/-- View of a parameter binding as a name-to-expression substitution:
each formal parameter name is sent to its bound argument's
expression. -/
def toExprSubst (s : ParameterSubstitution) : List (String × Expr) :=
  s.map (fun pa => (pa.fst.name, pa.snd.value))

/-- Modelled from the spec: `ActionCall::specialize` (declared at
methodInstance.h lines 222-224; body in methodInstance.cpp, outside the
available source).  "Generate a version of the action where the
parameters in the substitution have been replaced with the arguments":
every formal parameter occurrence in the body is textually replaced per
the parameter binding, and the produced action has no parameters.
Returns `none` on the non-action variants. -/
def MethodInstance.specialize : MethodInstance → Option P4Action
  | .actionCall d a =>
    some { name := a.name, parameters := [],
           body := a.body.map (substStmt (toExprSubst d.substitution)) }
  | _ => none

/-- The declarations that a method call may invoke at run time: extern
methods and functions (the element type of `ExternMethod::mayCall`'s
result). -/
inductive CalleeDecl where
  | methodDecl (m : Method)
  | functionDecl (f : Function)
deriving DecidableEq, Repr

/-- Modelled from the spec: `ExternMethod::mayCall` (declared at
methodInstance.h lines 185-188; body in methodInstance.cpp, outside the
available source).  "If this method is abstract, will consist of (just)
the concrete implementation, otherwise will consist of those methods
that are @synchronous with this": for an abstract method, the concrete
override found in the instance declaration's initializer; otherwise the
member methods of the actual extern type that the method's
`@synchronous` annotation names.  Empty on the non-extern-method
variants. -/
def MethodInstance.mayCall : MethodInstance → List CalleeDecl
  | .externMethod d m _ aet =>
    if m.isAbstract then
      match d.object with
      | some (.externInstance _ _ _ impls) =>
        match impls.find? (fun f => f.name == m.name) with
        | some f => [.functionDecl f]
        | none => []
      | _ => []
    else
      (aet.methods.filter (fun m2 => m.synchronousWith.contains m2.name)).map .methodDecl
  | _ => []

/-- An instantiation is fully bound when its parameter binding covers
exactly its constructor parameter list and its type-variable binding
covers exactly its type-parameter list. -/
def InstantiationData.fullyBound (d : InstantiationData) : Prop :=
  d.substitution.map Prod.fst = d.constructorParameters ∧
  d.typeSubstitution.map Prod.fst = d.typeParameters

/-- Projection of a constructor-call resolution onto the selected extern
constructor, when there is one. -/
def chosenConstructor : Except ResolutionError ConstructorCall → Option Method
  | .ok (.externCC _ _ c) => some c
  | _ => none

/-- Projection of a call resolution onto its type-variable binding, when
it succeeded. -/
def tsOf : Except ResolutionError MethodInstance → Option TypeVariableSubstitution
  | .ok r => some r.data.typeSubstitution
  | _ => none

/-- Sample nullary method signature. -/
def mt0 : Type_MethodBase := { typeParameters := [], parameters := [], returnType := .void }

/-- Sample generic signature with one type parameter `T` and one
parameter `x : T`. -/
def mt1 : Type_MethodBase :=
  { typeParameters := ["T"],
    parameters := [{ name := "x", typ := .tvar "T" }], returnType := .void }

/-- Sample non-generic user function. -/
def g0 : Function := { name := "g", type := mt0 }

/-- Sample generic user function. -/
def f1 : Function := { name := "f", type := mt1 }

/-- Sample parameter `x : bit<32>`. -/
def px : Parameter := { name := "x", typ := .bit 32 }

/-- Sample positional argument `5`. -/
def arg5 : Argument := { value := .num 5 }

/-- Sample positional argument `6`. -/
def arg6 : Argument := { value := .num 6 }

/-- Sample call `g()`. -/
def mce0 : MethodCallExpression := { callee := .path "g", typeArguments := [], arguments := [] }

/-- Sample call `f(5)` without type arguments. -/
def mce1 : MethodCallExpression :=
  { callee := .path "f", typeArguments := [], arguments := [arg5] }

/-- Sample action type with the single parameter `x : bit<32>`. -/
def aty0 : Type_MethodBase := { typeParameters := [], parameters := [px], returnType := .void }

/-- Sample action `a(x)` whose body assigns into `x`. -/
def a0 : P4Action := { name := "a", parameters := [px], body := [.assign (.var "x") (.num 1)] }

/-- Sample call `a(5)`. -/
def mceA : MethodCallExpression :=
  { callee := .path "a", typeArguments := [], arguments := [arg5] }

/-- The resolved instance of the call `a(5)`. -/
def R0 : MethodInstance := .actionCall
  { expr := mceA, object := none, originalMethodType := aty0, actualMethodType := aty0,
    substitution := [(px, arg5)], typeSubstitution := [] } a0

/-- The specialized, argument-free version of `a(5)`. -/
def spA : P4Action := { name := "a", parameters := [], body := [.assign (.num 5) (.num 1)] }

/-- The result of resolving `f(5)` in incomplete mode: the parameter
binding is populated but the type-variable binding is left empty. -/
def R1 : MethodInstance := .functionCall
  { expr := mce1, object := none, originalMethodType := mt1, actualMethodType := mt1,
    substitution := [({ name := "x", typ := .tvar "T" }, arg5)], typeSubstitution := [] } f1

/-- Sample environment declaring the action `a`. -/
def env0 : Env := { decls := [("a", .actionDecl a0 aty0)], exprTypes := [] }

/-- Zero-argument constructor of the sample extern type `E`. -/
def c0m : Method := { name := "E", type := mt0 }

/-- Single-argument constructor of the sample extern type `E`. -/
def c1m : Method :=
  { name := "E", type := { typeParameters := [], parameters := [px], returnType := .void } }

/-- Sample extern type `E` with a zero-argument and a single-argument
constructor. -/
def E0 : Type_Extern := { name := "E", typeParameters := [], methods := [c0m, c1m] }

/-- Type environment declaring `E`. -/
def tds0 : List (String × TypeDecl) := [("E", .externT E0)]

/-- Constructor call `E()`. -/
def cce0 : ConstructorCallExpression :=
  { constructedTypeName := "E", typeArguments := [], arguments := [] }

/-- Constructor call `E(5)`. -/
def cce1 : ConstructorCallExpression :=
  { constructedTypeName := "E", typeArguments := [], arguments := [arg5] }

/-- Constructor call `E(5, 6)`. -/
def cce2 : ConstructorCallExpression :=
  { constructedTypeName := "E", typeArguments := [], arguments := [arg5, arg6] }

/-- Instance declaration `E(5, 6) e2` with two constructor arguments. -/
def inst2 : Declaration_Instance := { name := "e2", arguments := [arg5, arg6] }

/-- Instance declaration `P() i` with no arguments. -/
def inst0 : Declaration_Instance := { name := "i", arguments := [] }

/-- Sample package with no constructor parameters. -/
def pkg0 : Type_Package := { name := "P", typeParameters := [], constructorParameters := [] }

/-- The resolved instantiation of `P() i`. -/
def RP : Instantiation := .packageInst
  { inst := inst0, typeArguments := [], constructorArguments := [],
    constructorParameters := [], typeParameters := [],
    substitution := [], typeSubstitution := [] } pkg0

/-- Sample abstract extern method `run`. -/
def mAbs : Method := { name := "run", type := mt0, isAbstract := true }

/-- Concrete override of `run` supplied by the instance initializer. -/
def fW : Function := { name := "run", type := mt0 }

/-- Extern method `m2`, peer of `m1`. -/
def peerW : Method := { name := "m2", type := mt0 }

/-- Extern method `m1`, annotated `@synchronous(m2)`. -/
def mSync : Method := { name := "m1", type := mt0, synchronousWith := ["m2"] }

/-- Sample extern type for the `mayCall` scenarios. -/
def oetW : Type_Extern := { name := "X", typeParameters := [], methods := [mAbs, mSync, peerW] }

/-- Common fields of an extern-method call on an instance of `oetW`. -/
def dW : MethodInstanceData :=
  { expr := mce0, object := some (.externInstance "e0" oetW [] [fW]),
    originalMethodType := mt0, actualMethodType := mt0,
    substitution := [], typeSubstitution := [] }

theorem bindRest_keys :
    ∀ (ps : List Parameter) (named : List Argument) (s : ParameterSubstitution),
      bindRest ps named = .ok s → s.map Prod.fst = ps := by
  intro ps
  induction ps with
  | nil =>
    intro named s h
    simp only [bindRest] at h
    split at h
    · cases h; rfl
    · exact Except.noConfusion h
  | cons p ps ih =>
    intro named s h
    simp only [bindRest] at h
    split at h
    next a _ =>
      split at h
      next s1 heq =>
        cases h
        simp [ih _ _ heq]
      next => exact Except.noConfusion h
    next =>
      split at h
      next d _ =>
        split at h
        next s1 heq =>
          cases h
          simp [ih _ _ heq]
        next => exact Except.noConfusion h
      next => exact Except.noConfusion h

theorem populate_keys :
    ∀ (params : List Parameter) (args : List Argument) (s : ParameterSubstitution),
      populate params args = .ok s → s.map Prod.fst = params := by
  intro params args s h
  simp only [populate] at h
  split at h
  next hle =>
    split at h
    next s1 heq =>
      cases h
      have hk := bindRest_keys _ _ _ heq
      have hzip : ((params.take ((args.takeWhile (fun a => a.name.isNone)).length)).zip
          (args.takeWhile (fun a => a.name.isNone))).map Prod.fst =
          params.take ((args.takeWhile (fun a => a.name.isNone)).length) := by
        apply List.map_fst_zip
        simp [List.length_take]
      simp only [List.map_append, hzip, hk]
      exact List.take_append_drop _ _
    next => exact Except.noConfusion h
  next => exact Except.noConfusion h

theorem populate_length :
    ∀ (params : List Parameter) (args : List Argument) (s : ParameterSubstitution),
      populate params args = .ok s → s.length = params.length := by
  intro params args s h
  have hk := populate_keys params args s h
  calc s.length = (s.map Prod.fst).length := (List.length_map _ _).symm
    _ = params.length := by rw [hk]

theorem populate_arity_failure :
    ∀ (params : List Parameter) (args : List Argument),
      params.length < (args.takeWhile (fun a => a.name.isNone)).length →
      populate params args = .error .bindingFailure := by
  intro params args hlt
  simp only [populate]
  split
  next hle => omega
  next => rfl

theorem setBindings_keys :
    ∀ (typeParams : List String) (typeArgs : List Ty) (ts : TypeVariableSubstitution),
      setBindings typeParams typeArgs = .ok ts → ts.map Prod.fst = typeParams := by
  intro typeParams typeArgs ts h
  simp only [setBindings] at h
  split at h
  next hlen =>
    cases h
    exact List.map_fst_zip _ _ (le_of_eq hlen)
  next => exact Except.noConfusion h

theorem mkApplyMethod_ok :
    ∀ (e : MethodCallExpression) (dcl : Declaration) (ao : IApply) (r : MethodInstance),
      mkApplyMethod e dcl ao = .ok r →
      ∃ s, populate ao.applyMethodType.parameters e.arguments = .ok s ∧
        r = .applyMethod
          { expr := e, object := some dcl,
            originalMethodType := ao.applyMethodType,
            actualMethodType := ao.applyMethodType,
            substitution := s, typeSubstitution := [] } ao := by
  intro e dcl ao r h
  unfold mkApplyMethod at h
  split at h
  next s heq =>
    cases h
    exact ⟨s, heq, rfl⟩
  next => exact Except.noConfusion h

theorem mkExternCall_ok :
    ∀ (e : MethodCallExpression) (m : Method) (amt : Type_MethodBase) (b : Bool)
      (r : ParameterSubstitution × TypeVariableSubstitution),
      mkExternCall e m amt b = .ok r →
      populate amt.parameters e.arguments = .ok r.fst ∧
        ((b = true ∧ r.snd = []) ∨
         (b = false ∧ setBindings m.type.typeParameters e.typeArguments = .ok r.snd)) := by
  intro e m amt b r h
  unfold mkExternCall at h
  split at h
  next => exact Except.noConfusion h
  next s heq =>
    split at h
    next hb =>
      cases h
      exact ⟨heq, Or.inl ⟨hb, rfl⟩⟩
    next hb =>
      split at h
      next => exact Except.noConfusion h
      next ts heq2 =>
        cases h
        exact ⟨heq, Or.inr ⟨by simpa using hb, heq2⟩⟩

theorem mkExternMethod_ok :
    ∀ (e : MethodCallExpression) (dcl : Declaration) (m : Method)
      (oet aet : Type_Extern) (o a : Type_MethodBase) (b : Bool) (r : MethodInstance),
      mkExternMethod e dcl m oet aet o a b = .ok r →
      ∃ s ts, mkExternCall e m a b = .ok (s, ts) ∧
        r = .externMethod
          { expr := e, object := some dcl, originalMethodType := o,
            actualMethodType := a, substitution := s, typeSubstitution := ts } m oet aet := by
  intro e dcl m oet aet o a b r h
  unfold mkExternMethod at h
  split at h
  next => exact Except.noConfusion h
  next s ts heq =>
    cases h
    exact ⟨s, ts, heq, rfl⟩

theorem mkExternFunction_ok :
    ∀ (e : MethodCallExpression) (m : Method) (o a : Type_MethodBase) (b : Bool)
      (r : MethodInstance),
      mkExternFunction e m o a b = .ok r →
      ∃ s ts, mkExternCall e m a b = .ok (s, ts) ∧
        r = .externFunction
          { expr := e, object := none, originalMethodType := o,
            actualMethodType := a, substitution := s, typeSubstitution := ts } m := by
  intro e m o a b r h
  unfold mkExternFunction at h
  split at h
  next => exact Except.noConfusion h
  next s ts heq =>
    cases h
    exact ⟨s, ts, heq, rfl⟩

theorem mkActionCall_ok :
    ∀ (e : MethodCallExpression) (a : P4Action) (aty : Type_MethodBase) (r : MethodInstance),
      mkActionCall e a aty = .ok r →
      ∃ s, populate aty.parameters e.arguments = .ok s ∧
        r = .actionCall
          { expr := e, object := none, originalMethodType := aty,
            actualMethodType := aty, substitution := s, typeSubstitution := [] } a := by
  intro e a aty r h
  unfold mkActionCall at h
  split at h
  next s heq =>
    cases h
    exact ⟨s, heq, rfl⟩
  next => exact Except.noConfusion h

theorem mkFunctionCall_ok :
    ∀ (e : MethodCallExpression) (f : Function) (o a : Type_MethodBase) (b : Bool)
      (r : MethodInstance),
      mkFunctionCall e f o a b = .ok r →
      ∃ s, populate a.parameters e.arguments = .ok s ∧
        ((b = true ∧ r = .functionCall
            { expr := e, object := none, originalMethodType := o,
              actualMethodType := a, substitution := s, typeSubstitution := [] } f) ∨
         (b = false ∧ ∃ ts, setBindings f.type.typeParameters e.typeArguments = .ok ts ∧
            r = .functionCall
              { expr := e, object := none, originalMethodType := o,
                actualMethodType := a, substitution := s, typeSubstitution := ts } f)) := by
  intro e f o a b r h
  unfold mkFunctionCall at h
  split at h
  next => exact Except.noConfusion h
  next s heq =>
    split at h
    next hb =>
      cases h
      exact ⟨s, heq, Or.inl ⟨hb, rfl⟩⟩
    next hb =>
      split at h
      next => exact Except.noConfusion h
      next ts heq2 =>
        cases h
        exact ⟨s, heq, Or.inr ⟨by simpa using hb, ts, heq2, rfl⟩⟩

theorem mkBuiltIn_ok :
    ∀ (e : MethodCallExpression) (n : String) (ap : Expr) (mt : Type_MethodBase)
      (r : MethodInstance),
      mkBuiltIn e n ap mt = .ok r →
      ∃ s, populate mt.parameters e.arguments = .ok s ∧
        r = .builtInMethod
          { expr := e, object := none, originalMethodType := mt,
            actualMethodType := mt, substitution := s, typeSubstitution := [] } n ap := by
  intro e n ap mt r h
  unfold mkBuiltIn at h
  split at h
  next s heq =>
    cases h
    exact ⟨s, heq, rfl⟩
  next => exact Except.noConfusion h

theorem substitute_ok :
    ∀ (cps : List Parameter) (cas : List Argument) (tps : List String) (tas : List Ty)
      (s : ParameterSubstitution) (ts : TypeVariableSubstitution),
      Instantiation.substitute cps cas tps tas = .ok (s, ts) →
      populate cps cas = .ok s ∧ setBindings tps tas = .ok ts := by
  intro cps cas tps tas s ts h
  unfold Instantiation.substitute at h
  split at h
  next => exact Except.noConfusion h
  next s1 heq =>
    split at h
    next => exact Except.noConfusion h
    next ts1 heq2 =>
      cases h
      exact ⟨heq, heq2⟩

theorem constructorCall_resolve_ok :
    ∀ (cce : ConstructorCallExpression) (types : List (String × TypeDecl))
      (r : ConstructorCall),
      ConstructorCall.resolve cce types = .ok r →
      populate r.data.constructorParameters cce.arguments = .ok r.data.substitution := by
  intro cce types r h
  unfold ConstructorCall.resolve at h
  split at h
  next t _ =>
    split at h
    next => exact Except.noConfusion h
    next c _ =>
      split at h
      next => exact Except.noConfusion h
      next s heq =>
        split at h
        next => exact Except.noConfusion h
        next ts heq2 =>
          cases h
          exact heq
  next n tps cps _ =>
    split at h
    next => exact Except.noConfusion h
    next s heq =>
      split at h
      next => exact Except.noConfusion h
      next ts heq2 =>
        cases h
        exact heq
  next => exact Except.noConfusion h

theorem mkExternInstantiation_ok :
    ∀ (i : Declaration_Instance) (ta : List Ty) (t : Type_Extern) (r : Instantiation),
      mkExternInstantiation i ta t = .ok r →
      ∃ c s ts, t.lookupConstructor i.arguments = some c ∧
        populate c.type.parameters i.arguments = .ok s ∧
        setBindings t.typeParameters ta = .ok ts ∧
        r.data = { inst := i, typeArguments := ta, constructorArguments := i.arguments,
                   constructorParameters := c.type.parameters,
                   typeParameters := t.typeParameters,
                   substitution := s, typeSubstitution := ts } := by
  intro i ta t r h
  unfold mkExternInstantiation at h
  split at h
  next => exact Except.noConfusion h
  next c hc =>
    split at h
    next => exact Except.noConfusion h
    next s ts heq =>
      cases h
      obtain ⟨h1, h2⟩ := substitute_ok _ _ _ _ _ _ heq
      exact ⟨c, s, ts, hc, h1, h2, rfl⟩

theorem mkPackageInstantiation_ok :
    ∀ (i : Declaration_Instance) (ta : List Ty) (p : Type_Package) (r : Instantiation),
      mkPackageInstantiation i ta p = .ok r →
      ∃ s ts, populate p.constructorParameters i.arguments = .ok s ∧
        setBindings p.typeParameters ta = .ok ts ∧
        r.data = { inst := i, typeArguments := ta, constructorArguments := i.arguments,
                   constructorParameters := p.constructorParameters,
                   typeParameters := p.typeParameters,
                   substitution := s, typeSubstitution := ts } := by
  intro i ta p r h
  unfold mkPackageInstantiation at h
  split at h
  next => exact Except.noConfusion h
  next s ts heq =>
    cases h
    obtain ⟨h1, h2⟩ := substitute_ok _ _ _ _ _ _ heq
    exact ⟨s, ts, h1, h2, rfl⟩

theorem mkParserInstantiation_ok :
    ∀ (i : Declaration_Instance) (ta : List Ty) (p : P4Parser) (r : Instantiation),
      mkParserInstantiation i ta p = .ok r →
      ∃ s ts, populate p.constructorParameters i.arguments = .ok s ∧
        setBindings p.typeParameters ta = .ok ts ∧
        r.data = { inst := i, typeArguments := ta, constructorArguments := i.arguments,
                   constructorParameters := p.constructorParameters,
                   typeParameters := p.typeParameters,
                   substitution := s, typeSubstitution := ts } := by
  intro i ta p r h
  unfold mkParserInstantiation at h
  split at h
  next => exact Except.noConfusion h
  next s ts heq =>
    cases h
    obtain ⟨h1, h2⟩ := substitute_ok _ _ _ _ _ _ heq
    exact ⟨s, ts, h1, h2, rfl⟩

theorem mkControlInstantiation_ok :
    ∀ (i : Declaration_Instance) (ta : List Ty) (c : P4Control) (r : Instantiation),
      mkControlInstantiation i ta c = .ok r →
      ∃ s ts, populate c.constructorParameters i.arguments = .ok s ∧
        setBindings c.typeParameters ta = .ok ts ∧
        r.data = { inst := i, typeArguments := ta, constructorArguments := i.arguments,
                   constructorParameters := c.constructorParameters,
                   typeParameters := c.typeParameters,
                   substitution := s, typeSubstitution := ts } := by
  intro i ta c r h
  unfold mkControlInstantiation at h
  split at h
  next => exact Except.noConfusion h
  next s ts heq =>
    cases h
    obtain ⟨h1, h2⟩ := substitute_ok _ _ _ _ _ _ heq
    exact ⟨s, ts, h1, h2, rfl⟩

theorem substExpr_no_var :
    ∀ (σ : List (String × Expr)) (v : String),
      v ∈ σ.map Prod.fst →
      (∀ q ∈ σ, exprHasVar v q.snd = false) →
      ∀ x, exprHasVar v (substExpr σ x) = false := by
  intro σ v hk hv x
  induction x with
  | num n => rfl
  | var w =>
    simp only [substExpr]
    split
    next q heq => exact hv q (List.mem_of_find?_eq_some heq)
    next heq =>
      obtain ⟨q, hq, hfst⟩ := List.mem_map.mp hk
      have hne := List.find?_eq_none.mp heq q hq
      simp only [exprHasVar, beq_eq_false_iff_ne]
      intro hwv
      exact hne (by simp [hfst, hwv])
  | member r f ih => simpa [substExpr, exprHasVar] using ih
  | path n => rfl

theorem substStmt_no_var :
    ∀ (σ : List (String × Expr)) (v : String),
      v ∈ σ.map Prod.fst →
      (∀ q ∈ σ, exprHasVar v q.snd = false) →
      ∀ st, stmtHasVar v (substStmt σ st) = false := by
  intro σ v hk hv st
  cases st with
  | assign l r => simp [substStmt, stmtHasVar, substExpr_no_var σ v hk hv]
  | exprStmt e => simp [substStmt, stmtHasVar, substExpr_no_var σ v hk hv]
  | emptyStmt => rfl

/-- C1: for every resolved call, constructor call and instantiation, the
parameter binding maps the actual (substituted) parameter list
one-to-one to the argument list, so the binding's size equals the
actual parameter list's size; and when arity cannot be matched the
binder (and hence resolution) fails. -/
theorem c1_arity_law :
    (∀ e dcl ao r, mkApplyMethod e dcl ao = .ok r →
      r.data.substitution.length = r.data.actualMethodType.parameters.length) ∧
    (∀ e m amt b r, mkExternCall e m amt b = .ok r →
      r.fst.length = amt.parameters.length) ∧
    (∀ e a aty r, mkActionCall e a aty = .ok r →
      r.data.substitution.length = r.data.actualMethodType.parameters.length) ∧
    (∀ e f o a b r, mkFunctionCall e f o a b = .ok r →
      r.data.substitution.length = r.data.actualMethodType.parameters.length) ∧
    (∀ e n ap mt r, mkBuiltIn e n ap mt = .ok r →
      r.data.substitution.length = r.data.actualMethodType.parameters.length) ∧
    (∀ cce types r, ConstructorCall.resolve cce types = .ok r →
      r.data.substitution.length = r.data.constructorParameters.length) ∧
    (∀ cps cas tps tas s ts, Instantiation.substitute cps cas tps tas = .ok (s, ts) →
      s.length = cps.length) ∧
    (∀ params args, params.length < (args.takeWhile (fun a => a.name.isNone)).length →
      populate params args = .error .bindingFailure) := by
  refine ⟨?_, ?_, ?_, ?_, ?_, ?_, ?_, ?_⟩
  · intro e dcl ao r h
    obtain ⟨s, hp, hr⟩ := mkApplyMethod_ok e dcl ao r h
    subst hr
    exact populate_length _ _ _ hp
  · intro e m amt b r h
    obtain ⟨hp, _⟩ := mkExternCall_ok e m amt b r h
    exact populate_length _ _ _ hp
  · intro e a aty r h
    obtain ⟨s, hp, hr⟩ := mkActionCall_ok e a aty r h
    subst hr
    exact populate_length _ _ _ hp
  · intro e f o a b r h
    obtain ⟨s, hp, hcase⟩ := mkFunctionCall_ok e f o a b r h
    rcases hcase with ⟨_, hr⟩ | ⟨_, ts, _, hr⟩
    all_goals subst hr; exact populate_length _ _ _ hp
  · intro e n ap mt r h
    obtain ⟨s, hp, hr⟩ := mkBuiltIn_ok e n ap mt r h
    subst hr
    exact populate_length _ _ _ hp
  · intro cce types r h
    exact populate_length _ _ _ (constructorCall_resolve_ok cce types r h)
  · intro cps cas tps tas s ts h
    obtain ⟨hp, _⟩ := substitute_ok cps cas tps tas s ts h
    exact populate_length _ _ _ hp
  · exact populate_arity_failure

/-- C1 witness: the call `a(5)` resolves with a parameter binding of the
same size as the action's parameter list. -/
theorem c1_witness :
    R0.data.substitution.length = R0.data.actualMethodType.parameters.length :=
  c1_arity_law.2.2.1 mceA a0 aty0 R0 rfl

/-- C2: outside incomplete mode, the type-variable binding binds every
declared type parameter of the callee — its key list is exactly the
callee's type-parameter list — for extern calls and function calls. -/
theorem c2_substitution_totality :
    (∀ e m amt r, mkExternCall e m amt false = .ok r →
      r.snd.map Prod.fst = m.type.typeParameters) ∧
    (∀ e f o a r, mkFunctionCall e f o a false = .ok r →
      r.data.typeSubstitution.map Prod.fst = f.type.typeParameters) := by
  constructor
  · intro e m amt r h
    obtain ⟨_, hcase⟩ := mkExternCall_ok e m amt false r h
    rcases hcase with ⟨hb, _⟩ | ⟨_, hsb⟩
    · exact Bool.noConfusion hb
    · exact setBindings_keys _ _ _ hsb
  · intro e f o a r h
    obtain ⟨s, _, hcase⟩ := mkFunctionCall_ok e f o a false r h
    rcases hcase with ⟨hb, _⟩ | ⟨_, ts, hsb, hr⟩
    · exact Bool.noConfusion hb
    · subst hr
      exact setBindings_keys _ _ _ hsb

/-- C2 witness: the complete-mode extern call `g()` on a nullary method
yields a type-variable binding whose keys are the method's (empty)
type-parameter list. -/
theorem c2_witness : ([] : TypeVariableSubstitution).map Prod.fst = c0m.type.typeParameters :=
  c2_substitution_totality.1 mce0 c0m mt0 ([], []) rfl

/-- C3 counterexample: incomplete- and complete-mode resolution do NOT
produce distinguishable result shapes.  Resolving the call `g()` of a
function with no type parameters yields literally the same
`MethodInstance` value in both modes (and it is a success, not an
error), so no consumer can tell from the result which mode produced it;
moreover an incomplete-mode resolution of the generic call `f(5)`
yields an ordinary result whose type-variable binding is simply empty
even though `f` declares the type parameter `T`. -/
theorem c3_counterexample :
    mkFunctionCall mce0 g0 mt0 mt0 true = mkFunctionCall mce0 g0 mt0 mt0 false ∧
    (mkFunctionCall mce0 g0 mt0 mt0 true).isOk = true ∧
    tsOf (mkFunctionCall mce1 f1 mt1 mt1 true) = some [] ∧
    f1.type.typeParameters = ["T"] :=
  ⟨rfl, rfl, rfl, rfl⟩

/-- C3 amended: incomplete-mode resolution returns the same result shape
as complete mode — the type-variable binding is merely left empty
(unfilled), and nothing in the result records the mode, so consumers
must track the mode out of band. -/
theorem c3_amended_same_shape :
    (∀ e f o a r, mkFunctionCall e f o a true = .ok r → r.data.typeSubstitution = []) ∧
    (∀ e m amt r, mkExternCall e m amt true = .ok r → r.snd = []) := by
  constructor
  · intro e f o a r h
    obtain ⟨s, _, hcase⟩ := mkFunctionCall_ok e f o a true r h
    rcases hcase with ⟨_, hr⟩ | ⟨hb, _⟩
    · subst hr
      rfl
    · exact Bool.noConfusion hb
  · intro e m amt r h
    obtain ⟨_, hcase⟩ := mkExternCall_ok e m amt true r h
    rcases hcase with ⟨_, hts⟩ | ⟨hb, _⟩
    · exact hts
    · exact Bool.noConfusion hb

/-- C3 witness: the incomplete-mode resolution of `f(5)` leaves the
type-variable binding empty. -/
theorem c3_witness : R1.data.typeSubstitution = [] :=
  c3_amended_same_shape.1 mce1 f1 mt1 mt1 R1 rfl

/-- C4: for every `ActionCall` and every `ApplyMethod`, the original and
the actual method type are identical (actions carry no type parameters
and apply-capable objects are never generic). -/
theorem c4_original_equals_actual :
    (∀ e a aty r, mkActionCall e a aty = .ok r →
      r.data.originalMethodType = r.data.actualMethodType) ∧
    (∀ e dcl ao r, mkApplyMethod e dcl ao = .ok r →
      r.data.originalMethodType = r.data.actualMethodType) := by
  constructor
  · intro e a aty r h
    obtain ⟨s, _, hr⟩ := mkActionCall_ok e a aty r h
    subst hr
    rfl
  · intro e dcl ao r h
    obtain ⟨s, _, hr⟩ := mkApplyMethod_ok e dcl ao r h
    subst hr
    rfl

/-- C4 witness: the resolved call `a(5)` has identical original and
actual method types. -/
theorem c4_witness : R0.data.originalMethodType = R0.data.actualMethodType :=
  c4_original_equals_actual.1 mceA a0 aty0 R0 rfl

/-- C5: every constructed `Instantiation` variant is fully bound at
construction — its parameter binding covers exactly the selected
constructor parameter list and its type-variable binding covers exactly
the selected type-parameter list; none of the four constructors takes
an incomplete mode. -/
theorem c5_instantiation_fully_bound :
    (∀ i ta t r, mkExternInstantiation i ta t = .ok r → r.data.fullyBound) ∧
    (∀ i ta p r, mkPackageInstantiation i ta p = .ok r → r.data.fullyBound) ∧
    (∀ i ta p r, mkParserInstantiation i ta p = .ok r → r.data.fullyBound) ∧
    (∀ i ta c r, mkControlInstantiation i ta c = .ok r → r.data.fullyBound) := by
  refine ⟨?_, ?_, ?_, ?_⟩
  · intro i ta t r h
    obtain ⟨c, s, ts, _, hp, hsb, hd⟩ := mkExternInstantiation_ok i ta t r h
    exact ⟨by rw [hd]; exact populate_keys _ _ _ hp,
           by rw [hd]; exact setBindings_keys _ _ _ hsb⟩
  · intro i ta p r h
    obtain ⟨s, ts, hp, hsb, hd⟩ := mkPackageInstantiation_ok i ta p r h
    exact ⟨by rw [hd]; exact populate_keys _ _ _ hp,
           by rw [hd]; exact setBindings_keys _ _ _ hsb⟩
  · intro i ta p r h
    obtain ⟨s, ts, hp, hsb, hd⟩ := mkParserInstantiation_ok i ta p r h
    exact ⟨by rw [hd]; exact populate_keys _ _ _ hp,
           by rw [hd]; exact setBindings_keys _ _ _ hsb⟩
  · intro i ta c r h
    obtain ⟨s, ts, hp, hsb, hd⟩ := mkControlInstantiation_ok i ta c r h
    exact ⟨by rw [hd]; exact populate_keys _ _ _ hp,
           by rw [hd]; exact setBindings_keys _ _ _ hsb⟩

/-- C5 witness: the instantiation `P() i` of a package with no
constructor parameters is fully bound. -/
theorem c5_witness : RP.data.fullyBound :=
  c5_instantiation_fully_bound.2.1 inst0 [] pkg0 RP rfl

/-- C6: for the extern type `E` with a zero-argument and a
single-argument constructor, `E(5)` selects the single-argument
constructor, `E()` selects the zero-argument constructor, and both the
constructor call `E(5, 6)` and the instantiation with arguments
`(5, 6)` fail with `NoMatchingConstructor`. -/
theorem c6_constructor_overload :
    chosenConstructor (ConstructorCall.resolve cce1 tds0) = some c1m ∧
    chosenConstructor (ConstructorCall.resolve cce0 tds0) = some c0m ∧
    ConstructorCall.resolve cce2 tds0 = .error .noMatchingConstructor ∧
    mkExternInstantiation inst2 [] E0 = .error .noMatchingConstructor :=
  ⟨rfl, rfl, rfl, rfl⟩

/-- C7: resolution is deterministic — `resolve` invoked twice with equal
call expressions, equal environments and equal mode flags returns equal
results (the classifier is a pure function of its inputs). -/
theorem c7_determinism :
    ∀ (mce mce2 : MethodCallExpression) (env env2 : Env) (inc inc2 : Bool),
      mce = mce2 → env = env2 → inc = inc2 →
      MethodInstance.resolve mce env inc = MethodInstance.resolve mce2 env2 inc2 := by
  intro mce mce2 env env2 inc inc2 h1 h2 h3
  rw [h1, h2, h3]

/-- C7 witness: re-resolving `a(5)` in the sample environment yields the
same result. -/
theorem c7_witness :
    MethodInstance.resolve mceA env0 false = MethodInstance.resolve mceA env0 false :=
  c7_determinism mceA mceA env0 env0 false false rfl rfl rfl

/-- C8: specializing a resolved `ActionCall` with parameter binding σ
produces, for every such call, an action that takes zero parameters and
whose body is the original body with every formal parameter textually
replaced by its bound actual argument per σ.  Additionally, whenever
the bound argument expressions avoid the formal names, no formal
parameter occurrence survives in the specialized body. -/
theorem c8_specialization_law :
    ∀ (e : MethodCallExpression) (a : P4Action) (aty : Type_MethodBase)
      (mi : MethodInstance) (sp : P4Action),
      mkActionCall e a aty = .ok mi →
      mi.specialize = some sp →
      sp.parameters = [] ∧
      sp.body = a.body.map (substStmt (toExprSubst mi.data.substitution)) ∧
      (aty.parameters = a.parameters →
       (∀ pa ∈ mi.data.substitution, ∀ p ∈ a.parameters,
         exprHasVar p.name pa.snd.value = false) →
       ∀ p ∈ a.parameters, ∀ st ∈ sp.body, stmtHasVar p.name st = false) := by
  intro e a aty mi sp hmk hsp
  obtain ⟨s, hpop, hmi⟩ := mkActionCall_ok e a aty mi hmk
  subst hmi
  simp only [MethodInstance.specialize, Option.some.injEq] at hsp
  subst hsp
  refine ⟨rfl, rfl, ?_⟩
  intro hparams havoid p hp st hst
  have hkeys := populate_keys _ _ _ hpop
  have hk : p.name ∈ (toExprSubst s).map Prod.fst := by
    have hview : (toExprSubst s).map Prod.fst = (s.map Prod.fst).map (fun q => q.name) := by
      simp only [toExprSubst, List.map_map]
      rfl
    rw [hview, hkeys, hparams]
    exact List.mem_map_of_mem _ hp
  have hv : ∀ q ∈ toExprSubst s, exprHasVar p.name q.snd = false := by
    intro q hq
    obtain ⟨pa, hpa, hqeq⟩ := List.mem_map.mp hq
    subst hqeq
    exact havoid pa hpa p hp
  obtain ⟨st0, _, hsteq⟩ := List.mem_map.mp hst
  subst hsteq
  exact substStmt_no_var _ _ hk hv st0

/-- C8 witness: specializing the resolved call `a(5)` yields the
zero-parameter action whose body is the original body with `x`
replaced by `5`. -/
theorem c8_witness :
    spA.parameters = [] ∧
    spA.body = a0.body.map (substStmt (toExprSubst R0.data.substitution)) ∧
    (∀ p ∈ a0.parameters, ∀ st ∈ spA.body, stmtHasVar p.name st = false) :=
  ⟨(c8_specialization_law mceA a0 aty0 R0 spA rfl rfl).1,
   (c8_specialization_law mceA a0 aty0 R0 spA rfl rfl).2.1,
   (c8_specialization_law mceA a0 aty0 R0 spA rfl rfl).2.2 rfl (by decide)⟩

/-- C9: `mayCall` on an `ExternMethod` returns the static one-hop call
set — for an abstract method, exactly the concrete override found in
the instance initializer; for a non-abstract method, exactly the member
methods of the actual extern type named by its `@synchronous`
annotation. -/
theorem c9_mayCall :
    (∀ (d : MethodInstanceData) (m : Method) (oet aet : Type_Extern)
       (iname : String) (ot : Type_Extern) (ib : TypeVariableSubstitution)
       (impls : List Function) (f : Function),
       m.isAbstract = true →
       d.object = some (.externInstance iname ot ib impls) →
       impls.find? (fun g => g.name == m.name) = some f →
       (MethodInstance.externMethod d m oet aet).mayCall = [.functionDecl f]) ∧
    (∀ (d : MethodInstanceData) (m : Method) (oet aet : Type_Extern) (c : CalleeDecl),
       m.isAbstract = false →
       (c ∈ (MethodInstance.externMethod d m oet aet).mayCall ↔
         ∃ m2, c = .methodDecl m2 ∧ m2 ∈ aet.methods ∧
           m.synchronousWith.contains m2.name = true)) := by
  constructor
  · intro d m oet aet iname ot ib impls f habs hobj hfind
    simp [MethodInstance.mayCall, habs, hobj, hfind]
  · intro d m oet aet c habs
    simp only [MethodInstance.mayCall, habs, Bool.false_eq_true, if_false, List.mem_map]
    constructor
    · rintro ⟨m2, hm2, hc⟩
      have hmf := List.mem_filter.mp hm2
      exact ⟨m2, hc.symm, hmf.1, hmf.2⟩
    · rintro ⟨m2, hc, hmem, hsync⟩
      exact ⟨m2, List.mem_filter.mpr ⟨hmem, hsync⟩, hc.symm⟩

/-- C9 witness: the abstract method `run` may call exactly its concrete
override, and the `@synchronous(m2)` method `m1` may call the peer
method `m2`. -/
theorem c9_witness :
    (MethodInstance.externMethod dW mAbs oetW oetW).mayCall = [.functionDecl fW] ∧
    CalleeDecl.methodDecl peerW ∈ (MethodInstance.externMethod dW mSync oetW oetW).mayCall :=
  ⟨c9_mayCall.1 dW mAbs oetW oetW "e0" oetW [] [fW] fW rfl rfl rfl,
   (c9_mayCall.2 dW mSync oetW oetW (.methodDecl peerW) rfl).mpr
     ⟨peerW, rfl, by decide, rfl⟩⟩

/-- C10: the incomplete flag affects only the type-variable
substitution — the parameter substitution is the result of the
unconditional `bindParameters` in both modes (and is identical across
the two modes), complete mode additionally runs `setBindings`, and
incomplete-mode success is decided by parameter binding alone. -/
theorem c10_incomplete_frame :
    (∀ e m amt b r, mkExternCall e m amt b = .ok r →
      populate amt.parameters e.arguments = .ok r.fst) ∧
    (∀ e m amt r r2, mkExternCall e m amt true = .ok r →
      mkExternCall e m amt false = .ok r2 → r.fst = r2.fst) ∧
    (∀ e m amt r, mkExternCall e m amt false = .ok r →
      setBindings m.type.typeParameters e.typeArguments = .ok r.snd) ∧
    (∀ e m amt, (mkExternCall e m amt true).isOk = (populate amt.parameters e.arguments).isOk) ∧
    (∀ e f o a b r, mkFunctionCall e f o a b = .ok r →
      populate a.parameters e.arguments = .ok r.data.substitution) := by
  refine ⟨?_, ?_, ?_, ?_, ?_⟩
  · intro e m amt b r h
    exact (mkExternCall_ok e m amt b r h).1
  · intro e m amt r r2 h1 h2
    have hp1 := (mkExternCall_ok e m amt true r h1).1
    have hp2 := (mkExternCall_ok e m amt false r2 h2).1
    rw [hp1] at hp2
    exact (Except.ok.injEq _ _ ▸ hp2 : _)
  · intro e m amt r h
    obtain ⟨_, hcase⟩ := mkExternCall_ok e m amt false r h
    rcases hcase with ⟨hb, _⟩ | ⟨_, hsb⟩
    · exact Bool.noConfusion hb
    · exact hsb
  · intro e m amt
    cases hp : populate amt.parameters e.arguments with
    | ok s => simp [mkExternCall, hp, Except.isOk, Except.toBool]
    | error err => simp [mkExternCall, hp, Except.isOk, Except.toBool]
  · intro e f o a b r h
    obtain ⟨s, hp, hcase⟩ := mkFunctionCall_ok e f o a b r h
    rcases hcase with ⟨_, hr⟩ | ⟨_, ts, _, hr⟩
    all_goals subst hr; exact hp

/-- C10 witness: for the incomplete-mode extern call `g()` the
parameter binder did run and produced the (empty) parameter binding. -/
theorem c10_witness : populate mt0.parameters mce0.arguments = .ok [] :=
  c10_incomplete_frame.1 mce0 c0m mt0 true ([], []) rfl

end P4
